import Mathlib

/-!
Shallow embedding of the backoffice backend's authentication core:
the credential hasher, the JWT token codec (`internal/infrastructure/token`),
the auth domain model, the user repository
(`internal/infrastructure/postgres`), the auth service
(`internal/usecase/auth`), the administrative user service
(`internal/usecase/user`), and the HTTP authorization gate
(`internal/server`).

External effects are made explicit parameters: the current time (`nowFunc`)
is an `Int` (Unix seconds) argument, the fresh identifier produced by
`uuid.NewString()` is a `String` argument, and the PostgreSQL table is a
`Store` value threaded in state-passing style (each repository and service
operation returns its result together with the table it leaves behind).
-/

/-! ## Go string helpers

`strings.TrimSpace`, `strings.ToLower`, `strings.HasPrefix` and byte
slicing are embedded as character-list computations (the header scheme
and all normalization-relevant characters are ASCII, where bytes and
characters coincide). -/

/-- ASCII lower-casing of one character (`unicode.ToLower` restricted to
the range the comparisons in this code can distinguish). -/
def goLowerChar (c : Char) : Char :=
  if 'A' ≤ c ∧ c ≤ 'Z' then Char.ofNat (c.toNat + 32) else c

/-- `strings.ToLower`. -/
def goToLower (s : String) : String :=
  ⟨s.data.map goLowerChar⟩

/-- Strip leading and trailing whitespace from a character list. -/
def goTrimChars (cs : List Char) : List Char :=
  ((cs.dropWhile Char.isWhitespace).reverse.dropWhile Char.isWhitespace).reverse

/-- `strings.TrimSpace`. -/
def goTrim (s : String) : String :=
  ⟨goTrimChars s.data⟩

def charsLeadWith : List Char → List Char → Bool
  | [], _ => true
  | _ :: _, [] => false
  | a :: as, b :: bs => a == b && charsLeadWith as bs

/-- `strings.HasPrefix s pat`. -/
def goLeadsWith (s pat : String) : Bool :=
  charsLeadWith pat.data s.data

/-- `s[n:]` on an ASCII-led string: drop the first `n` characters. -/
def goDrop (s : String) (n : Nat) : String :=
  ⟨s.data.drop n⟩

/-! ## Credential hasher (model of the bcrypt library contract)

`bcrypt.GenerateFromPassword` / `bcrypt.CompareHashAndPassword` are an
external library.  They are modelled symbolically: a digest is an opaque
string determined by the plaintext (the salt is elided), and comparison
succeeds exactly when the digest was produced from the given plaintext.
Hashing never fails in the model (the Go call fails only on resource
exhaustion). -/

def bcryptGenerateFromPassword (password : String) : String :=
  "$2a$10$" ++ password

def bcryptCompareHashAndPassword (hash password : String) : Bool :=
  hash == bcryptGenerateFromPassword password

/-! ## Token codec (`internal/infrastructure/token/jwt_manager.go`)

The JWT library is modelled symbolically (perfect cryptography): a
signature is a value recording exactly which secret, algorithm and claims
were signed, so a signature verifies under a secret iff it was produced by
signing those claims with that secret and algorithm.  An arbitrary inbound
token string either fails JWT parsing (`none`) or decodes to a structured
token (`some t`); `Option SignedToken` therefore stands for the wire
string. -/

inductive JwtAlg where
  | HS256 | HS384 | HS512 | RS256 | ES256 | EdDSA
  deriving DecidableEq, Repr

/-- The `t.Method.(*jwt.SigningMethodHMAC)` type assertion in the key
function: only the HMAC family passes. -/
def JwtAlg.isHMAC : JwtAlg → Bool
  | .HS256 | .HS384 | .HS512 => true
  | _ => false

/-- The claims carried by a token: `uid` custom claim plus the registered
issuer / issued-at / expires-at claims (`Claims` in `jwt_manager.go`). -/
structure JwtClaims where
  uid : String
  iss : String
  iat : Int
  exp : Int
  deriving DecidableEq, Repr

/-- A symbolic MAC value: signing is injective and unforgeable by
construction. -/
structure JwtSig where
  secret : String
  alg : JwtAlg
  claims : JwtClaims
  deriving DecidableEq, Repr

def jwtSign (secret : String) (alg : JwtAlg) (claims : JwtClaims) : JwtSig :=
  ⟨secret, alg, claims⟩

structure SignedToken where
  alg : JwtAlg
  claims : JwtClaims
  sig : JwtSig
  deriving DecidableEq, Repr

/-- `JWTManager` configuration (secret, expiration, issuer). -/
structure JWTManager where
  secret : String
  expiration : Int
  issuer : String
  deriving DecidableEq, Repr

/-- `JWTManager.Generate`: stamp issuer, issued-at = now, expires-at =
now + expiration, sign with HS256 under the configured secret. -/
def JWTManager.Generate (m : JWTManager) (now : Int) (userID : String) : SignedToken :=
  let claims : JwtClaims := { uid := userID, iss := m.issuer, iat := now, exp := now + m.expiration }
  { alg := .HS256, claims := claims, sig := jwtSign m.secret .HS256 claims }

/-- `JWTManager.Validate`: parse (malformed strings fail), reject a
non-HMAC signing method in the key function, verify the signature under
the configured secret, and reject an expired token (jwt/v5 validates
`expires-at` against the current time with zero leeway: the token is live
iff now < exp).  Returns the `uid` claim on success. -/
def JWTManager.Validate (m : JWTManager) (now : Int) (wire : Option SignedToken) :
    Except String String :=
  match wire with
  | none => .error "token is malformed"
  | some t =>
    if ¬ t.alg.isHMAC then .error "unexpected signing method"
    else if t.sig ≠ jwtSign m.secret t.alg t.claims then .error "signature is invalid"
    else if t.claims.exp ≤ now then .error "token is expired"
    else .ok t.claims.uid

/-! ## Auth domain (`internal/domain/auth`) -/

/-- `RoleUser`: the standard application role. -/
def RoleUser : String := "user"

/-- `RoleAdmin`: the administrative role. -/
def RoleAdmin : String := "admin"

/-- `domain.User`.  `Role` is a string in the source (`type UserRole
string`), so it is a `String` here; the Go zero value of the field is
`""`. -/
structure User where
  id : String
  email : String
  name : String
  role : String
  passwordHash : String
  createdAt : Int
  updatedAt : Int
  deriving DecidableEq, Repr

/-- `domain.Credentials`. -/
structure Credentials where
  email : String
  password : String
  deriving DecidableEq, Repr

/-- The error taxonomy of `internal/domain/auth` plus the ad-hoc
`errors.New` validation errors the services return. -/
inductive AuthErr where
  | validation (msg : String)
  | invalidCredentials
  | emailExists
  | tokenInvalid
  | userNotFound
  | invalidRole
  | passwordMismatch
  | passwordUnchanged
  deriving DecidableEq, Repr

/-- Decidable equality of Go `(result, error)` outcomes. -/
instance {α β : Type} [DecidableEq α] [DecidableEq β] : DecidableEq (Except α β) := fun a b =>
  match a, b with
  | .error x, .error y =>
    if h : x = y then isTrue (h ▸ rfl) else isFalse (fun hc => h (Except.error.inj hc))
  | .ok x, .ok y =>
    if h : x = y then isTrue (h ▸ rfl) else isFalse (fun hc => h (Except.ok.inj hc))
  | .error _, .ok _ => isFalse (fun hc => Except.noConfusion hc)
  | .ok _, .error _ => isFalse (fun hc => Except.noConfusion hc)

/-! ## User repository (`internal/infrastructure/postgres/user_repository.go`)

The `users` table is a list of rows.  The `UNIQUE` constraint on `email`
and the primary key on `id` are enforced at insert: any uniqueness
violation is translated to `ErrEmailExists` by `isUniqueViolation`, as in
the source.  Each operation returns its result together with the table it
leaves behind. -/

abbrev Store := List User

/-- `UserRepository.GetByEmail` (`SELECT ... WHERE email = $1`); a miss is
`ErrUserNotFound`, modelled as `none`. -/
def repoGetByEmail (store : Store) (email : String) : Option User × Store :=
  (List.find? (fun u => u.email == email) store, store)

/-- `UserRepository.GetByID` (`SELECT ... WHERE id = $1`). -/
def repoGetByID (store : Store) (id : String) : Option User × Store :=
  (List.find? (fun u => u.id == id) store, store)

/-- `UserRepository.Create` (`INSERT INTO users ...`): a uniqueness
violation (duplicate email, or duplicate primary-key id) becomes
`ErrEmailExists`. -/
def repoCreate (store : Store) (user : User) : Except AuthErr Unit × Store :=
  if store.any (fun u => u.email == user.email || u.id == user.id) then
    (.error .emailExists, store)
  else
    (.ok (), store ++ [user])

/-- `UserRepository.Update` (`UPDATE users SET email, name, role,
updated_at WHERE id = $1`): zero rows affected is `ErrUserNotFound`; a
uniqueness violation on the new email (another row already holds it)
becomes `ErrEmailExists`.  The password hash and creation timestamp
columns are not touched. -/
def repoUpdate (store : Store) (user : User) : Except AuthErr Unit × Store :=
  if ¬ store.any (fun u => u.id == user.id) then
    (.error .userNotFound, store)
  else if store.any (fun u => u.id ≠ user.id && u.email == user.email) then
    (.error .emailExists, store)
  else
    (.ok (), store.map (fun u =>
      if u.id == user.id then
        { u with email := user.email, name := user.name, role := user.role,
                 updatedAt := user.updatedAt }
      else u))

/-- `UserRepository.Delete` (`DELETE FROM users WHERE id = $1`): zero rows
affected is `ErrUserNotFound`. -/
def repoDelete (store : Store) (id : String) : Except AuthErr Unit × Store :=
  if store.any (fun u => u.id == id) then
    (.ok (), store.filter (fun u => ¬ u.id == id))
  else
    (.error .userNotFound, store)

/-- Insertion into a list kept ordered by `createdAt` descending
(`ORDER BY created_at DESC`). -/
def insertByCreatedDesc (u : User) : List User → List User
  | [] => [u]
  | v :: vs => if v.createdAt ≤ u.createdAt then u :: v :: vs else v :: insertByCreatedDesc u vs

def sortByCreatedDesc : List User → List User
  | [] => []
  | u :: us => insertByCreatedDesc u (sortByCreatedDesc us)

/-- `UserRepository.List`: optional role filter, ordered by creation time,
most recent first. -/
def repoList (store : Store) (roleFilter : String) : List User × Store :=
  (sortByCreatedDesc (if roleFilter ≠ "" then store.filter (fun u => u.role == roleFilter) else store),
   store)

/-- `UserRepository.UpdatePassword` (`UPDATE users SET password_hash,
updated_at WHERE id = $1`). -/
def repoUpdatePassword (store : Store) (id passwordHash : String) (updatedAt : Int) :
    Except AuthErr Unit × Store :=
  if store.any (fun u => u.id == id) then
    (.ok (), store.map (fun u =>
      if u.id == id then { u with passwordHash := passwordHash, updatedAt := updatedAt } else u))
  else
    (.error .userNotFound, store)

/-! ## Authentication service (`internal/usecase/auth/service.go`)

`s.nowFunc().UTC()` is the `now : Int` argument; `uuid.NewString()` is the
`newId : String` argument.  Each operation returns its Go results inside
`Except` together with the table left behind. -/

namespace Auth

/-- `sanitizeUser`: a copy of the record with the password hash cleared. -/
def sanitizeUser (u : User) : User :=
  { u with passwordHash := "" }

/-- `Service.Register`.  Note: the source builds the new `domain.User`
without assigning the `Role` field, so the persisted role is the Go zero
value `""`. -/
def register (store : Store) (newId : String) (now : Int)
    (email password name : String) : Except AuthErr User × Store :=
  let email := goTrim (goToLower email)
  let password := goTrim password
  if email = "" then (.error (.validation "email is required"), store)
  else if password = "" then (.error (.validation "password is required"), store)
  else
    match repoGetByEmail store email with
    | (some _, store) => (.error .emailExists, store)
    | (none, store) =>
      let hashed := bcryptGenerateFromPassword password
      let user : User :=
        { id := newId, email := email, name := goTrim name, role := "",
          passwordHash := hashed, createdAt := now, updatedAt := now }
      match repoCreate store user with
      | (.error e, store) => (.error e, store)
      | (.ok _, store) => (.ok (sanitizeUser user), store)

/-- `Service.Login`: normalize, reject empty fields, look up by email,
compare the bcrypt hash; every failure is `ErrInvalidCredentials`.  On
success issue a token for the user id and return it with the sanitized
user. -/
def login (store : Store) (m : JWTManager) (now : Int)
    (creds : Credentials) : Except AuthErr (SignedToken × User) × Store :=
  let email := goTrim (goToLower creds.email)
  let password := goTrim creds.password
  if email = "" ∨ password = "" then (.error .invalidCredentials, store)
  else
    match repoGetByEmail store email with
    | (none, store) => (.error .invalidCredentials, store)
    | (some user, store) =>
      if ¬ bcryptCompareHashAndPassword user.passwordHash password then
        (.error .invalidCredentials, store)
      else
        (.ok (m.Generate now user.id, sanitizeUser user), store)

/-- `Service.VerifyToken`: any codec failure becomes `ErrTokenInvalid`;
an unresolvable subject id (`ErrUserNotFound`) also becomes
`ErrTokenInvalid`; otherwise the sanitized user is returned. -/
def verifyToken (store : Store) (m : JWTManager) (now : Int)
    (wire : Option SignedToken) : Except AuthErr User × Store :=
  match m.Validate now wire with
  | .error _ => (.error .tokenInvalid, store)
  | .ok userID =>
    match repoGetByID store userID with
    | (none, store) => (.error .tokenInvalid, store)
    | (some user, store) => (.ok (sanitizeUser user), store)

end Auth

/-! ## Administrative user service (`internal/usecase/user/service.go`) -/

namespace UserSvc

/-- The admin service's own `sanitizeUser` (a duplicate of the auth
service's). -/
def sanitizeUser (u : User) : User :=
  { u with passwordHash := "" }

def sanitizeUsers (items : List User) : List User :=
  items.map sanitizeUser

/-- `ensureRole`: lower-case and trim, default the empty role (to `user`
when `defaultToUser`), accept only the enumerated roles. -/
def ensureRole (raw : String) (defaultToUser : Bool) : Except AuthErr String :=
  let role := goTrim (goToLower raw)
  if role = "" then
    if defaultToUser then .ok RoleUser else .ok ""
  else if role = RoleUser ∨ role = RoleAdmin then .ok role
  else .error .invalidRole

/-- `user.Service.List`: a non-empty (trimmed, lower-cased) role filter
must parse; results are sanitized. -/
def list (store : Store) (filterRole : String) : Except AuthErr (List User) × Store :=
  let trimmed := goTrim (goToLower filterRole)
  if trimmed ≠ "" then
    match ensureRole trimmed false with
    | .error e => (.error e, store)
    | .ok role =>
      match repoList store role with
      | (users, store) => (.ok (sanitizeUsers users), store)
  else
    match repoList store "" with
    | (users, store) => (.ok (sanitizeUsers users), store)

/-- `user.Service.Get`. -/
def get (store : Store) (id : String) : Except AuthErr User × Store :=
  let id := goTrim id
  if id = "" then (.error (.validation "user id is required"), store)
  else
    match repoGetByID store id with
    | (none, store) => (.error .userNotFound, store)
    | (some user, store) => (.ok (sanitizeUser user), store)

/-- `user.CreateInput`. -/
structure CreateInput where
  email : String
  name : String
  password : String
  role : String
  deriving Repr

/-- `user.Service.Create`. -/
def create (store : Store) (newId : String) (now : Int)
    (input : CreateInput) : Except AuthErr User × Store :=
  let email := goTrim (goToLower input.email)
  let name := goTrim input.name
  let password := goTrim input.password
  if email = "" then (.error (.validation "email is required"), store)
  else if password = "" then (.error (.validation "password is required"), store)
  else
    match ensureRole input.role true with
    | .error e => (.error e, store)
    | .ok role =>
      match repoGetByEmail store email with
      | (some _, store) => (.error .emailExists, store)
      | (none, store) =>
        let hashed := bcryptGenerateFromPassword password
        let user : User :=
          { id := newId, email := email, name := name, role := role,
            passwordHash := hashed, createdAt := now, updatedAt := now }
        match repoCreate store user with
        | (.error e, store) => (.error e, store)
        | (.ok _, store) => (.ok (sanitizeUser user), store)

/-- `user.UpdateInput` (pointer fields become `Option`). -/
structure UpdateInput where
  email : Option String := none
  name : Option String := none
  role : Option String := none
  deriving Repr

/-- `user.Service.Update`: load, apply the present fields (normalizing
email and validating role), refresh the update timestamp, persist. -/
def update (store : Store) (now : Int) (id : String)
    (input : UpdateInput) : Except AuthErr User × Store :=
  let id := goTrim id
  if id = "" then (.error (.validation "user id is required"), store)
  else
    match repoGetByID store id with
    | (none, store) => (.error .userNotFound, store)
    | (some user, store) =>
      let emailStep : Except AuthErr User :=
        match input.email with
        | none => .ok user
        | some e =>
          let e := goTrim (goToLower e)
          if e = "" then .error (.validation "email is required")
          else .ok { user with email := e }
      match emailStep with
      | .error e => (.error e, store)
      | .ok user =>
        let user :=
          match input.name with
          | none => user
          | some n => { user with name := goTrim n }
        let roleStep : Except AuthErr User :=
          match input.role with
          | none => .ok user
          | some r =>
            match ensureRole r true with
            | .error e => .error e
            | .ok role => .ok { user with role := role }
        match roleStep with
        | .error e => (.error e, store)
        | .ok user =>
          let user := { user with updatedAt := now }
          match repoUpdate store user with
          | (.error e, store) => (.error e, store)
          | (.ok _, store) => (.ok (sanitizeUser user), store)

/-- `user.Service.Delete`. -/
def delete (store : Store) (id : String) : Except AuthErr Unit × Store :=
  let id := goTrim id
  if id = "" then (.error (.validation "user id is required"), store)
  else repoDelete store id

end UserSvc

/-! ## HTTP authorization gate and role handlers (`internal/server/handlers.go`)

JSON decoding, method dispatch and response writing are out of scope; the
handlers are modelled from the point where the payload fields are
available.  The authenticated principal attached by the middleware is an
`Option User` (`currentUserFromContext`). -/

/-- `extractBearerToken`: case-insensitive `Bearer ` scheme, the rest of
the header trimmed.  (`header[7:]` slices 7 bytes; the matched scheme is
ASCII, so dropping 7 characters coincides.) -/
def extractBearerToken (header : String) : String :=
  if header = "" then ""
  else if ¬ goLeadsWith (goToLower header) "bearer " then ""
  else goTrim (goDrop header 7)

/-- Outcome of the authorization middleware: an unauthenticated 401-class
rejection, or the request passed to the downstream handler with the
resolved principal attached. -/
inductive MwOutcome where
  | unauthenticated (msg : String)
  | next (principal : User)
  deriving DecidableEq, Repr

/-- `Server.authMiddleware`.  The service's `VerifyToken` is abstracted
as the `verify` argument so that not consulting it is expressible: on an
empty extracted token the middleware rejects for every possible
`verify`. -/
def authMiddleware (verify : String → Except AuthErr User) (header : String) : MwOutcome :=
  let token := extractBearerToken header
  if token = "" then .unauthenticated "authorization token required"
  else
    match verify token with
    | .error _ => .unauthenticated "invalid or expired token"
    | .ok user => .next user

/-- HTTP-level outcome of a handler (status class plus body of
interest). -/
inductive HttpResponse where
  | ok (user : User)
  | badRequest (msg : String)
  | unauthorized (msg : String)
  | forbidden (msg : String)
  | notFound (msg : String)
  | conflict (msg : String)
  deriving DecidableEq, Repr

/-- `Server.requireAdmin`: `none` when the check passes, otherwise the
rejection that was written. -/
def requireAdmin (principal : Option User) : Option HttpResponse :=
  match principal with
  | none => some (.unauthorized "authentication required")
  | some user =>
    if user.role ≠ RoleAdmin then some (.forbidden "admin privileges required")
    else none

/-- Map a `user.Service.Update` error the way `handleUserRole` /
`handleAdminUserRole` do. -/
def writeUpdateError (e : AuthErr) : HttpResponse :=
  match e with
  | .userNotFound => .notFound "user not found"
  | .invalidRole => .badRequest "invalid role"
  | .emailExists => .conflict "email already registered"
  | .validation msg => .badRequest msg
  | _ => .badRequest "bad request"

/-- `Server.handleUserRole`, PUT/PATCH branch: the self-service role
update.  Requesting `admin` while not being an admin is rejected 403
before any update is attempted. -/
def handleUserRole (store : Store) (now : Int) (principal : Option User)
    (payloadRole : String) : HttpResponse × Store :=
  match principal with
  | none => (.unauthorized "authentication required", store)
  | some user =>
    let role := goTrim payloadRole
    if role = "" then (.badRequest "role is required", store)
    else
      let normalized := goToLower role
      if normalized = RoleAdmin ∧ user.role ≠ RoleAdmin then
        (.forbidden "insufficient privileges to assign admin role", store)
      else
        match UserSvc.update store now user.id { role := some role } with
        | (.error e, store) => (writeUpdateError e, store)
        | (.ok updated, store) => (.ok updated, store)

/-- `Server.handleAdminUserRole`, PUT/PATCH branch: admin-gated role
update of an arbitrary user. -/
def handleAdminUserRole (store : Store) (now : Int) (principal : Option User)
    (userID payloadRole : String) : HttpResponse × Store :=
  match requireAdmin principal with
  | some rejection => (rejection, store)
  | none =>
    let role := goTrim payloadRole
    if role = "" then (.badRequest "role is required", store)
    else
      match UserSvc.update store now userID { role := some role } with
      | (.error e, store) => (writeUpdateError e, store)
      | (.ok updated, store) => (.ok updated, store)

/-! ## Auxiliary lemmas -/

theorem aux_find?_append_none {p : User → Bool} {l₁ l₂ : List User}
    (h : List.find? p l₁ = none) : List.find? p (l₁ ++ l₂) = List.find? p l₂ := by
  rw [List.find?_append, h, Option.none_or]

theorem aux_sanitize_hash (u : User) : (Auth.sanitizeUser u).passwordHash = "" := rfl

theorem aux_delete_no_uid (store : Store) (uid : String) :
    List.find? (fun u => u.id == uid) (repoDelete store uid).2 = none := by
  unfold repoDelete
  by_cases h : store.any (fun u => u.id == uid)
  · simp only [h, if_true]
    rw [List.find?_eq_none]
    intro x hx
    have := (List.mem_filter.mp hx).2
    simpa using this
  · simp only [h, if_false]
    rw [List.find?_eq_none]
    intro x hx
    intro hc
    exact h (List.any_eq_true.mpr ⟨x, hx, hc⟩)

/-! ## Claims -/

/-- C3: the spec requires `Register` to persist and return the default
role `user`, but `Service.Register` never assigns the `Role` field of the
new `domain.User`, so the Go zero value `""` is persisted and returned.
This theorem evaluates `Register` at a concrete valid input and exhibits
the empty role (which is not the enumerated default `RoleUser`). -/
theorem register_persists_empty_role :
    Auth.register [] "id-1" 100 "a@example.com" "secret1" "Alice" =
      (.ok { id := "id-1", email := "a@example.com", name := "Alice", role := "",
             passwordHash := "", createdAt := 100, updatedAt := 100 },
       [{ id := "id-1", email := "a@example.com", name := "Alice", role := "",
          passwordHash := bcryptGenerateFromPassword "secret1",
          createdAt := 100, updatedAt := 100 }]) ∧
    ("" : String) ≠ RoleUser :=
  ⟨rfl, by decide⟩

/-- C8: whenever the authorization header is missing, does not carry the
case-insensitive `Bearer ` scheme, or carries only whitespace after the
scheme, the middleware answers the 401-class "authorization token
required" rejection — for every conceivable `VerifyToken`, i.e. without
consulting it or the downstream handler. -/
theorem authMiddleware_rejects_without_bearer_token
    (verify : String → Except AuthErr User) (header : String)
    (h : header = "" ∨ ¬ goLeadsWith (goToLower header) "bearer " ∨ goTrim (goDrop header 7) = "") :
    authMiddleware verify header = .unauthenticated "authorization token required" := by
  have htok : extractBearerToken header = "" := by
    unfold extractBearerToken
    rcases h with h | h | h
    · simp [h]
    · by_cases h0 : header = "" <;> simp [h0, h]
    · by_cases h0 : header = "" <;>
        by_cases h1 : goLeadsWith (goToLower header) "bearer " <;> simp [h0, h1, h]
  unfold authMiddleware
  simp [htok]

theorem authMiddleware_rejects_without_bearer_token_witness :
    (¬ (goLeadsWith (goToLower "Token abc") "bearer ") ∧
      authMiddleware (fun _ => .ok { id := "u", email := "e", name := "n", role := "admin",
                                     passwordHash := "", createdAt := 0, updatedAt := 0 })
        "Token abc" = .unauthenticated "authorization token required") ∧
    (goTrim (goDrop "Bearer   " 7) = "" ∧
      authMiddleware (fun _ => .error .tokenInvalid) "Bearer   " =
        .unauthenticated "authorization token required") :=
  ⟨⟨by decide,
    authMiddleware_rejects_without_bearer_token _ "Token abc" (Or.inr (Or.inl (by decide)))⟩,
   ⟨by decide,
    authMiddleware_rejects_without_bearer_token _ "Bearer   " (Or.inr (Or.inr (by decide)))⟩⟩

/-- C5: the codec's `Validate` answers an error — never a subject
identifier — on a malformed token, on a signing algorithm outside the
HMAC family, on a signature that does not verify under the configured
secret, and on an expires-at that has passed (the last even when the
signature is valid). -/
theorem jwt_validate_rejects (m : JWTManager) (now : Int) :
    (∃ msg, m.Validate now none = .error msg) ∧
    (∀ t : SignedToken, t.alg.isHMAC = false →
      ∃ msg, m.Validate now (some t) = .error msg) ∧
    (∀ t : SignedToken, t.sig ≠ jwtSign m.secret t.alg t.claims →
      ∃ msg, m.Validate now (some t) = .error msg) ∧
    (∀ t : SignedToken, t.claims.exp ≤ now →
      ∃ msg, m.Validate now (some t) = .error msg) := by
  refine ⟨⟨"token is malformed", rfl⟩, ?_, ?_, ?_⟩
  · intro t h
    exact ⟨"unexpected signing method", by simp [JWTManager.Validate, h]⟩
  · intro t h
    by_cases halg : t.alg.isHMAC
    · exact ⟨"signature is invalid", by simp [JWTManager.Validate, halg, h]⟩
    · exact ⟨"unexpected signing method", by simp [JWTManager.Validate, halg]⟩
  · intro t h
    by_cases halg : t.alg.isHMAC
    · by_cases hsig : t.sig = jwtSign m.secret t.alg t.claims
      · exact ⟨"token is expired", by simp [JWTManager.Validate, halg, hsig, h]⟩
      · exact ⟨"signature is invalid", by simp [JWTManager.Validate, halg, hsig]⟩
    · exact ⟨"unexpected signing method", by simp [JWTManager.Validate, halg]⟩

/-- Demo configuration used by concrete witnesses. -/
def demoM : JWTManager := { secret := "topsecret", expiration := 100, issuer := "backoffice" }

theorem jwt_validate_rejects_witness :
    ((⟨.RS256, ⟨"u", "backoffice", 0, 100⟩, jwtSign "topsecret" .RS256 ⟨"u", "backoffice", 0, 100⟩⟩ : SignedToken).alg.isHMAC = false ∧
      (∃ msg, demoM.Validate 10 (some ⟨.RS256, ⟨"u", "backoffice", 0, 100⟩,
        jwtSign "topsecret" .RS256 ⟨"u", "backoffice", 0, 100⟩⟩) = .error msg)) ∧
    ((⟨.HS256, ⟨"u", "backoffice", 0, 100⟩, jwtSign "wrong" .HS256 ⟨"u", "backoffice", 0, 100⟩⟩ : SignedToken).sig ≠
        jwtSign demoM.secret .HS256 ⟨"u", "backoffice", 0, 100⟩ ∧
      (∃ msg, demoM.Validate 10 (some ⟨.HS256, ⟨"u", "backoffice", 0, 100⟩,
        jwtSign "wrong" .HS256 ⟨"u", "backoffice", 0, 100⟩⟩) = .error msg)) ∧
    ((demoM.Generate 0 "u").claims.exp ≤ 100 ∧
      (∃ msg, demoM.Validate 100 (some (demoM.Generate 0 "u")) = .error msg)) :=
  ⟨⟨by decide, (jwt_validate_rejects demoM 10).2.1 _ (by decide)⟩,
   ⟨by decide, (jwt_validate_rejects demoM 10).2.2.1 _ (by decide)⟩,
   ⟨by decide, (jwt_validate_rejects demoM 100).2.2.2 _ (by decide)⟩⟩

/-- C2: `Service.VerifyToken` collapses every codec failure to
`ErrTokenInvalid`, collapses a subject id that no longer resolves in the
store to `ErrTokenInvalid`, and — revocation by deletion — rejects as
`ErrTokenInvalid` any token issued for an account after that account is
deleted, even while the token is unexpired. -/
theorem verifyToken_single_tokenInvalid (m : JWTManager) (now : Int) :
    (∀ (store : Store) (wire : Option SignedToken) (msg : String),
      m.Validate now wire = .error msg →
      Auth.verifyToken store m now wire = (.error .tokenInvalid, store)) ∧
    (∀ (store : Store) (wire : Option SignedToken) (uid : String),
      m.Validate now wire = .ok uid →
      (repoGetByID store uid).1 = none →
      Auth.verifyToken store m now wire = (.error .tokenInvalid, store)) ∧
    (∀ (store : Store) (tGen : Int) (uid : String),
      now < tGen + m.expiration →
      (Auth.verifyToken (repoDelete store uid).2 m now (some (m.Generate tGen uid))).1 =
        .error .tokenInvalid) := by
  refine ⟨?_, ?_, ?_⟩
  · intro store wire msg h
    simp only [Auth.verifyToken, h]
  · intro store wire uid h hmiss
    simp only [repoGetByID] at hmiss
    simp only [Auth.verifyToken, h, repoGetByID, hmiss]
  · intro store tGen uid hlive
    have hval : m.Validate now (some (m.Generate tGen uid)) = .ok uid := by
      unfold JWTManager.Validate JWTManager.Generate
      simp [JwtAlg.isHMAC, jwtSign]
      omega
    simp only [Auth.verifyToken, hval, repoGetByID, aux_delete_no_uid]

theorem verifyToken_single_tokenInvalid_witness :
    (demoM.Validate 0 none = .error "token is malformed" ∧
      Auth.verifyToken [] demoM 0 none = (.error .tokenInvalid, [])) ∧
    (demoM.Validate 0 (some (demoM.Generate 0 "ghost")) = .ok "ghost" ∧
      (repoGetByID [] "ghost").1 = none ∧
      Auth.verifyToken [] demoM 0 (some (demoM.Generate 0 "ghost")) = (.error .tokenInvalid, [])) ∧
    ((10 : Int) < 0 + demoM.expiration ∧
      (Auth.verifyToken
        (repoDelete [{ id := "u0", email := "a@example.com", name := "A", role := "user",
                       passwordHash := "h", createdAt := 0, updatedAt := 0 }] "u0").2
        demoM 10 (some (demoM.Generate 0 "u0"))).1 = .error .tokenInvalid) :=
  ⟨⟨rfl, (verifyToken_single_tokenInvalid demoM 0).1 [] none _ rfl⟩,
   ⟨rfl, by decide,
    (verifyToken_single_tokenInvalid demoM 0).2.1 [] _ "ghost" rfl (by decide)⟩,
   ⟨by decide, (verifyToken_single_tokenInvalid demoM 10).2.2 _ 0 "u0" (by decide)⟩⟩

/-- C4: `Service.Login` answers the one error value
`ErrInvalidCredentials` for an empty (after trimming) email or password
(without revealing which), for an email that resolves to no account, and
for a present email whose stored hash does not verify against the given
password. -/
theorem login_failures_all_invalidCredentials (store : Store) (m : JWTManager)
    (now : Int) (creds : Credentials) :
    ((goTrim (goToLower creds.email) = "" ∨ goTrim creds.password = "") →
      (Auth.login store m now creds).1 = .error .invalidCredentials) ∧
    ((repoGetByEmail store (goTrim (goToLower creds.email))).1 = none →
      (Auth.login store m now creds).1 = .error .invalidCredentials) ∧
    (∀ user : User,
      (repoGetByEmail store (goTrim (goToLower creds.email))).1 = some user →
      bcryptCompareHashAndPassword user.passwordHash (goTrim creds.password) = false →
      (Auth.login store m now creds).1 = .error .invalidCredentials) := by
  refine ⟨?_, ?_, ?_⟩
  · intro h
    simp only [Auth.login]
    rw [if_pos h]
  · intro hmiss
    simp only [repoGetByEmail] at hmiss
    by_cases hempty : goTrim (goToLower creds.email) = "" ∨ goTrim creds.password = ""
    · simp only [Auth.login]
      rw [if_pos hempty]
    · simp only [Auth.login, repoGetByEmail, hmiss]
      rw [if_neg hempty]
  · intro user hfound hbad
    simp only [repoGetByEmail] at hfound
    by_cases hempty : goTrim (goToLower creds.email) = "" ∨ goTrim creds.password = ""
    · simp only [Auth.login]
      rw [if_pos hempty]
    · simp only [Auth.login, repoGetByEmail, hfound, hbad]
      rw [if_neg hempty]
      simp [hbad]

theorem login_failures_all_invalidCredentials_witness :
    (goTrim "   " = "" ∧
      (Auth.login [] demoM 0 ⟨"a@example.com", "   "⟩).1 = .error .invalidCredentials) ∧
    ((repoGetByEmail [] (goTrim (goToLower "nobody@example.com"))).1 = none ∧
      (Auth.login [] demoM 0 ⟨"nobody@example.com", "pw"⟩).1 = .error .invalidCredentials) ∧
    ((repoGetByEmail [{ id := "u0", email := "a@example.com", name := "A", role := "user",
                        passwordHash := bcryptGenerateFromPassword "right", createdAt := 0,
                        updatedAt := 0 }] (goTrim (goToLower "a@example.com"))).1 =
        some { id := "u0", email := "a@example.com", name := "A", role := "user",
               passwordHash := bcryptGenerateFromPassword "right", createdAt := 0,
               updatedAt := 0 } ∧
      bcryptCompareHashAndPassword (bcryptGenerateFromPassword "right") (goTrim "wrong") = false ∧
      (Auth.login [{ id := "u0", email := "a@example.com", name := "A", role := "user",
                     passwordHash := bcryptGenerateFromPassword "right", createdAt := 0,
                     updatedAt := 0 }] demoM 0 ⟨"a@example.com", "wrong"⟩).1 =
        .error .invalidCredentials) :=
  ⟨⟨by decide,
    (login_failures_all_invalidCredentials [] demoM 0 ⟨"a@example.com", "   "⟩).1
      (Or.inr (by decide))⟩,
   ⟨by decide,
    (login_failures_all_invalidCredentials [] demoM 0 ⟨"nobody@example.com", "pw"⟩).2.1
      (by decide)⟩,
   ⟨by decide, by decide,
    (login_failures_all_invalidCredentials
        [{ id := "u0", email := "a@example.com", name := "A", role := "user",
           passwordHash := bcryptGenerateFromPassword "right", createdAt := 0, updatedAt := 0 }]
        demoM 0 ⟨"a@example.com", "wrong"⟩).2.2
      { id := "u0", email := "a@example.com", name := "A", role := "user",
        passwordHash := bcryptGenerateFromPassword "right", createdAt := 0, updatedAt := 0 }
      (by decide) (by decide)⟩⟩

/-- The store holding the already-registered account used to decide C6. -/
def c6Store : Store :=
  [{ id := "u0", email := "a@example.com", name := "A", role := "user",
     passwordHash := "h", createdAt := 0, updatedAt := 0 }]

/-- C6 counterexample: `Register` with an email that already belongs to a
persisted account but an empty password does NOT fail `EmailExists` — the
empty-password validation error fires before the duplicate-email
lookup. -/
theorem register_existing_email_empty_password_not_emailExists :
    (Auth.register c6Store "fresh-id" 5 "a@example.com" "" "X").1 =
      .error (.validation "password is required") ∧
    (Auth.register c6Store "fresh-id" 5 "a@example.com" "" "X").1 ≠
      .error .emailExists := by
  constructor
  · rfl
  · intro h
    simp only [Auth.register] at h
    revert h
    decide

/-- C6 (amended): for every `Register` call whose normalized email is
non-empty and already belongs to a persisted account and whose trimmed
password is non-empty, the call fails `EmailExists`; and independently the
repository translates a uniqueness violation on insert (the store already
holds the email) to `EmailExists`, so a racing duplicate that passes the
pre-check still fails `EmailExists`. -/
theorem register_duplicate_email_fails_emailExists :
    (∀ (store : Store) (newId : String) (now : Int) (email password name : String)
        (u : User),
      goTrim (goToLower email) ≠ "" →
      goTrim password ≠ "" →
      (repoGetByEmail store (goTrim (goToLower email))).1 = some u →
      (Auth.register store newId now email password name).1 = .error .emailExists) ∧
    (∀ (store : Store) (u v : User), v ∈ store → v.email = u.email →
      (repoCreate store u).1 = .error .emailExists) := by
  constructor
  · intro store newId now email password name u hEmail hPw hdup
    simp only [repoGetByEmail] at hdup
    simp only [Auth.register, repoGetByEmail, hdup]
    rw [if_neg hEmail, if_neg hPw]
  · intro store u v hv hvu
    have : store.any (fun w => w.email == u.email || w.id == u.id) = true := by
      refine List.any_eq_true.mpr ⟨v, hv, ?_⟩
      simp [hvu]
    simp only [repoCreate, this]
    rfl

theorem register_duplicate_email_fails_emailExists_witness :
    (goTrim (goToLower " A@Example.com ") ≠ "" ∧
      goTrim "other-password" ≠ "" ∧
      (repoGetByEmail c6Store (goTrim (goToLower " A@Example.com "))).1 =
        some { id := "u0", email := "a@example.com", name := "A", role := "user",
               passwordHash := "h", createdAt := 0, updatedAt := 0 } ∧
      (Auth.register c6Store "fresh-id" 5 " A@Example.com " "other-password" "X").1 =
        .error .emailExists) ∧
    ({ id := "u0", email := "a@example.com", name := "A", role := "user",
       passwordHash := "h", createdAt := 0, updatedAt := 0 } : User) ∈ c6Store ∧
    (repoCreate c6Store { id := "u1", email := "a@example.com", name := "B", role := "user",
                          passwordHash := "h2", createdAt := 1, updatedAt := 1 }).1 =
      .error .emailExists :=
  ⟨⟨by decide, by decide, by decide,
    register_duplicate_email_fails_emailExists.1 c6Store "fresh-id" 5 " A@Example.com "
      "other-password" "X"
      { id := "u0", email := "a@example.com", name := "A", role := "user",
        passwordHash := "h", createdAt := 0, updatedAt := 0 }
      (by decide) (by decide) (by decide)⟩,
   by decide,
   register_duplicate_email_fails_emailExists.2 c6Store _
     { id := "u0", email := "a@example.com", name := "A", role := "user",
       passwordHash := "h", createdAt := 0, updatedAt := 0 } (by decide) (by decide)⟩

/-- C10: sanitization is a fresh copy — `sanitizeUser` preserves every
field except the password hash, which it clears, and both copies of the
function agree — and the read-only operations (`Login`, `VerifyToken`,
administrative `Get`/`List`) leave the store exactly as they found it, so
the persisted account keeps its password hash. -/
theorem sanitizeUser_fresh_copy_reads_preserve_store :
    (∀ u : User,
      (Auth.sanitizeUser u).id = u.id ∧ (Auth.sanitizeUser u).email = u.email ∧
      (Auth.sanitizeUser u).name = u.name ∧ (Auth.sanitizeUser u).role = u.role ∧
      (Auth.sanitizeUser u).createdAt = u.createdAt ∧
      (Auth.sanitizeUser u).updatedAt = u.updatedAt ∧
      (Auth.sanitizeUser u).passwordHash = "") ∧
    (∀ u : User, UserSvc.sanitizeUser u = Auth.sanitizeUser u) ∧
    (∀ (store : Store) (m : JWTManager) (now : Int) (creds : Credentials),
      (Auth.login store m now creds).2 = store) ∧
    (∀ (store : Store) (m : JWTManager) (now : Int) (wire : Option SignedToken),
      (Auth.verifyToken store m now wire).2 = store) ∧
    (∀ (store : Store) (id : String), (UserSvc.get store id).2 = store) ∧
    (∀ (store : Store) (filterRole : String), (UserSvc.list store filterRole).2 = store) := by
  refine ⟨fun u => ⟨rfl, rfl, rfl, rfl, rfl, rfl, rfl⟩, fun u => rfl, ?_, ?_, ?_, ?_⟩
  · intro store m now creds
    by_cases h : goTrim (goToLower creds.email) = "" ∨ goTrim creds.password = ""
    · simp only [Auth.login, repoGetByEmail, if_pos h]
    · cases hf : List.find? (fun u => u.email == goTrim (goToLower creds.email)) store with
      | none => simp only [Auth.login, repoGetByEmail, if_neg h, hf]
      | some user =>
        simp only [Auth.login, repoGetByEmail, if_neg h, hf]
        split <;> rfl
  · intro store m now wire
    cases hv : m.Validate now wire with
    | error msg => simp only [Auth.verifyToken, hv]
    | ok uid =>
      cases hf : List.find? (fun u => u.id == uid) store with
      | none => simp only [Auth.verifyToken, hv, repoGetByID, hf]
      | some user => simp only [Auth.verifyToken, hv, repoGetByID, hf]
  · intro store id
    by_cases h : goTrim id = ""
    · simp only [UserSvc.get, if_pos h]
    · cases hf : List.find? (fun u => u.id == goTrim id) store with
      | none => simp only [UserSvc.get, repoGetByID, if_neg h, hf]
      | some user => simp only [UserSvc.get, repoGetByID, if_neg h, hf]
  · intro store filterRole
    by_cases h : goTrim (goToLower filterRole) ≠ ""
    · cases he : UserSvc.ensureRole (goTrim (goToLower filterRole)) false with
      | error e => simp only [UserSvc.list, if_pos h, he]
      | ok role => simp only [UserSvc.list, if_pos h, he, repoList]
    · simp only [UserSvc.list, if_neg h, repoList]

/-- C7: every account record a service operation hands outward —
`Register`, `Login`, `VerifyToken`, and the administrative
`List`/`Get`/`Create`/`Update` — carries an empty password hash. -/
theorem outward_accounts_have_empty_hash :
    (∀ (store : Store) (newId : String) (now : Int) (email password name : String) (u : User),
      (Auth.register store newId now email password name).1 = .ok u → u.passwordHash = "") ∧
    (∀ (store : Store) (m : JWTManager) (now : Int) (creds : Credentials)
        (t : SignedToken) (u : User),
      (Auth.login store m now creds).1 = .ok (t, u) → u.passwordHash = "") ∧
    (∀ (store : Store) (m : JWTManager) (now : Int) (wire : Option SignedToken) (u : User),
      (Auth.verifyToken store m now wire).1 = .ok u → u.passwordHash = "") ∧
    (∀ (store : Store) (filterRole : String) (us : List User),
      (UserSvc.list store filterRole).1 = .ok us → ∀ u ∈ us, u.passwordHash = "") ∧
    (∀ (store : Store) (id : String) (u : User),
      (UserSvc.get store id).1 = .ok u → u.passwordHash = "") ∧
    (∀ (store : Store) (newId : String) (now : Int) (input : UserSvc.CreateInput) (u : User),
      (UserSvc.create store newId now input).1 = .ok u → u.passwordHash = "") ∧
    (∀ (store : Store) (now : Int) (id : String) (input : UserSvc.UpdateInput) (u : User),
      (UserSvc.update store now id input).1 = .ok u → u.passwordHash = "") := by
  refine ⟨?_, ?_, ?_, ?_, ?_, ?_, ?_⟩
  · intro store newId now email password name u h
    simp only [Auth.register, repoGetByEmail, repoCreate] at h
    repeat' split at h
    all_goals simp_all [Auth.sanitizeUser]
    all_goals (first | (rcases h with ⟨h1, rfl⟩; rfl) | (rcases h with rfl; rfl))
  · intro store m now creds t u h
    simp only [Auth.login, repoGetByEmail] at h
    repeat' split at h
    all_goals simp_all [Auth.sanitizeUser]
    all_goals (first | (rcases h with ⟨h1, rfl⟩; rfl) | (rcases h with rfl; rfl))
  · intro store m now wire u h
    simp only [Auth.verifyToken, repoGetByID] at h
    repeat' split at h
    all_goals simp_all [Auth.sanitizeUser]
    all_goals (first | (rcases h with ⟨h1, rfl⟩; rfl) | (rcases h with rfl; rfl))
  · intro store filterRole us h u hu
    simp only [UserSvc.list, repoList] at h
    repeat' split at h
    all_goals simp_all [UserSvc.sanitizeUsers, UserSvc.sanitizeUser]
    all_goals
      subst h
      obtain ⟨a, ha, rfl⟩ := List.mem_map.mp hu
      rfl
  · intro store id u h
    simp only [UserSvc.get, repoGetByID] at h
    repeat' split at h
    all_goals simp_all [UserSvc.sanitizeUser]
    all_goals (first | (rcases h with ⟨h1, rfl⟩; rfl) | (rcases h with rfl; rfl))
  · intro store newId now input u h
    simp only [UserSvc.create, repoGetByEmail, repoCreate] at h
    repeat' split at h
    all_goals simp_all [UserSvc.sanitizeUser]
    all_goals (first | (rcases h with ⟨h1, rfl⟩; rfl) | (rcases h with rfl; rfl))
  · intro store now id input u h
    simp only [UserSvc.update, repoGetByID, repoUpdate] at h
    repeat' split at h
    all_goals simp_all [UserSvc.sanitizeUser]
    all_goals (first | (rcases h with ⟨h1, rfl⟩; rfl) | (rcases h with rfl; rfl))

theorem outward_accounts_have_empty_hash_witness :
    ((Auth.register [] "id-1" 7 "b@example.com" "pw1" "Bea").1 =
        .ok { id := "id-1", email := "b@example.com", name := "Bea", role := "",
              passwordHash := "", createdAt := 7, updatedAt := 7 } ∧
      ({ id := "id-1", email := "b@example.com", name := "Bea", role := "",
         passwordHash := "", createdAt := 7, updatedAt := 7 } : User).passwordHash = "") ∧
    ((UserSvc.list c6Store "user").1 =
        .ok [{ id := "u0", email := "a@example.com", name := "A", role := "user",
               passwordHash := "", createdAt := 0, updatedAt := 0 }] ∧
      ∀ u ∈ [({ id := "u0", email := "a@example.com", name := "A", role := "user",
                passwordHash := "", createdAt := 0, updatedAt := 0 } : User)],
        u.passwordHash = "") :=
  ⟨⟨by decide,
    outward_accounts_have_empty_hash.1 [] "id-1" 7 "b@example.com" "pw1" "Bea" _ (by decide)⟩,
   ⟨by decide,
    outward_accounts_have_empty_hash.2.2.2.1 c6Store "user" _ (by decide)⟩⟩

/-- C9: a non-admin principal requesting the `admin` role for themselves
through the self-service role endpoint is rejected 403 with the store
untouched; the identical role update through the admin endpoint by an
admin principal succeeds and returns the account with role `admin`. -/
theorem self_escalation_forbidden_admin_path_succeeds :
    (∀ (store : Store) (now : Int) (principal : User) (roleInput : String),
      principal.role ≠ RoleAdmin →
      goToLower (goTrim roleInput) = RoleAdmin →
      handleUserRole store now (some principal) roleInput =
        (.forbidden "insufficient privileges to assign admin role", store)) ∧
    (∀ (store : Store) (now : Int) (adminP target : User),
      adminP.role = RoleAdmin →
      goTrim target.id = target.id →
      target.id ≠ "" →
      (repoGetByID store target.id).1 = some target →
      store.any (fun v => v.id ≠ target.id && v.email == target.email) = false →
      (handleAdminUserRole store now (some adminP) target.id "admin").1 =
        .ok { target with role := RoleAdmin, updatedAt := now, passwordHash := "" }) := by
  constructor
  · intro store now principal roleInput hrole hnorm
    have hne : ¬ goTrim roleInput = "" := by
      intro h0
      rw [h0] at hnorm
      exact absurd hnorm (by decide)
    simp only [handleUserRole]
    rw [if_neg hne, if_pos (⟨hnorm, hrole⟩ : _ ∧ _)]
  · intro store now adminP target hrole htrim hne hfound hnoclash
    have hfind : List.find? (fun u => u.id == target.id) store = some target := by
      simpa [repoGetByID] using hfound
    have hmem : target ∈ store := List.mem_of_find?_eq_some hfind
    have hany : store.any (fun u => u.id == target.id) = true :=
      List.any_eq_true.mpr ⟨target, hmem, by simp⟩
    have hreq : requireAdmin (some adminP) = none := by
      simp [requireAdmin, hrole]
    have hens : UserSvc.ensureRole (goTrim "admin") true = .ok "admin" := by decide
    simp only [handleAdminUserRole, hreq]
    rw [if_neg (by decide : ¬ goTrim "admin" = "")]
    simp only [UserSvc.update, htrim, repoGetByID, hfind, repoUpdate]
    rw [if_neg hne]
    simp only [hens, hany, hnoclash]
    simp [UserSvc.sanitizeUser, RoleAdmin]

/-- Concrete admin account used by the C9 witness. -/
def demoAdmin : User :=
  { id := "u0", email := "a@example.com", name := "A", role := "admin",
    passwordHash := "h", createdAt := 0, updatedAt := 0 }

theorem self_escalation_forbidden_admin_path_succeeds_witness :
    (({ id := "u1", email := "b@example.com", name := "B", role := "user",
        passwordHash := "h", createdAt := 0, updatedAt := 0 } : User).role ≠ RoleAdmin ∧
      goToLower (goTrim " Admin ") = RoleAdmin ∧
      handleUserRole [] 9
        (some { id := "u1", email := "b@example.com", name := "B", role := "user",
                passwordHash := "h", createdAt := 0, updatedAt := 0 }) " Admin " =
        (.forbidden "insufficient privileges to assign admin role", [])) ∧
    (demoAdmin.role = RoleAdmin ∧
      goTrim demoAdmin.id = demoAdmin.id ∧
      demoAdmin.id ≠ "" ∧
      (repoGetByID [demoAdmin] demoAdmin.id).1 = some demoAdmin ∧
      [demoAdmin].any (fun v => v.id ≠ demoAdmin.id && v.email == demoAdmin.email) = false ∧
      (handleAdminUserRole [demoAdmin] 9 (some demoAdmin) demoAdmin.id "admin").1 =
        .ok { demoAdmin with role := RoleAdmin, updatedAt := 9, passwordHash := "" }) :=
  ⟨⟨by decide, by decide,
    self_escalation_forbidden_admin_path_succeeds.1 [] 9
      { id := "u1", email := "b@example.com", name := "B", role := "user",
        passwordHash := "h", createdAt := 0, updatedAt := 0 } " Admin "
      (by decide) (by decide)⟩,
   ⟨by decide, by decide, by decide, by decide, by decide,
    self_escalation_forbidden_admin_path_succeeds.2 [demoAdmin] 9 demoAdmin demoAdmin
      (by decide) (by decide) (by decide) (by decide) (by decide)⟩⟩

/-- The account record `Service.Register` builds before persisting it
(used to spell out the round-trip proof). -/
def aux_newUser (newId : String) (now : Int) (email password name : String) : User :=
  { id := newId, email := goTrim (goToLower email), name := goTrim name, role := "",
    passwordHash := bcryptGenerateFromPassword (goTrim password),
    createdAt := now, updatedAt := now }

/-- C1: for valid non-empty credentials against a store not holding the
email (nor the fresh id), `Register` succeeds, a subsequent `Login` with
the same credentials succeeds and returns a token, and `VerifyToken` on
that token (checked before its expiry) accepts it and resolves to an
account with the identifier `Register` returned. -/
theorem register_login_verifyToken_roundtrip
    (store : Store) (m : JWTManager) (newId : String) (tReg tLogin tVerify : Int)
    (email password name : String)
    (hEmail : goTrim (goToLower email) ≠ "")
    (hPw : goTrim password ≠ "")
    (hFree : (repoGetByEmail store (goTrim (goToLower email))).1 = none)
    (hId : ∀ u ∈ store, u.id ≠ newId)
    (hLive : tVerify < tLogin + m.expiration) :
    ∃ (regUser : User) (token : SignedToken) (loginUser verifyUser : User),
      (Auth.register store newId tReg email password name).1 = .ok regUser ∧
      (Auth.login (Auth.register store newId tReg email password name).2 m tLogin
        ⟨email, password⟩).1 = .ok (token, loginUser) ∧
      (Auth.verifyToken (Auth.register store newId tReg email password name).2 m tVerify
        (some token)).1 = .ok verifyUser ∧
      verifyUser.id = regUser.id := by
  have hfind : List.find? (fun u => u.email == goTrim (goToLower email)) store = none := by
    simpa [repoGetByEmail] using hFree
  have hnoclash : store.any (fun u =>
      u.email == (aux_newUser newId tReg email password name).email ||
      u.id == (aux_newUser newId tReg email password name).id) = false := by
    rw [List.any_eq_false]
    intro x hx
    have h1 := List.find?_eq_none.mp hfind x hx
    have h2 := hId x hx
    simp only [aux_newUser]
    simp only [Bool.or_eq_true, not_or]
    exact ⟨by simpa using h1, by simpa using h2⟩
  have hreg : Auth.register store newId tReg email password name =
      (.ok (Auth.sanitizeUser (aux_newUser newId tReg email password name)),
       store ++ [aux_newUser newId tReg email password name]) := by
    simp only [Auth.register, repoGetByEmail, hfind, repoCreate]
    rw [if_neg hEmail, if_neg hPw]
    simp only [aux_newUser] at hnoclash ⊢
    simp only [hnoclash]
    rfl
  have hfind2 : List.find? (fun u => u.email == goTrim (goToLower email))
      (store ++ [aux_newUser newId tReg email password name]) =
      some (aux_newUser newId tReg email password name) := by
    rw [aux_find?_append_none hfind]
    simp [List.find?, aux_newUser]
  have hlogin : (Auth.login (store ++ [aux_newUser newId tReg email password name]) m tLogin
      ⟨email, password⟩).1 =
      .ok (m.Generate tLogin newId,
           Auth.sanitizeUser (aux_newUser newId tReg email password name)) := by
    simp only [Auth.login, repoGetByEmail, hfind2]
    rw [if_neg (not_or.mpr ⟨hEmail, hPw⟩)]
    simp [bcryptCompareHashAndPassword, aux_newUser]
  have hval : m.Validate tVerify (some (m.Generate tLogin newId)) = .ok newId := by
    unfold JWTManager.Validate JWTManager.Generate
    simp [JwtAlg.isHMAC, jwtSign]
    omega
  have hfind3 : List.find? (fun u => u.id == newId)
      (store ++ [aux_newUser newId tReg email password name]) =
      some (aux_newUser newId tReg email password name) := by
    have hnone : List.find? (fun u => u.id == newId) store = none :=
      List.find?_eq_none.mpr (fun x hx => by simpa using hId x hx)
    rw [aux_find?_append_none hnone]
    simp [List.find?, aux_newUser]
  have hver : (Auth.verifyToken (store ++ [aux_newUser newId tReg email password name]) m
      tVerify (some (m.Generate tLogin newId))).1 =
      .ok (Auth.sanitizeUser (aux_newUser newId tReg email password name)) := by
    simp only [Auth.verifyToken, hval, repoGetByID, hfind3]
  refine ⟨Auth.sanitizeUser (aux_newUser newId tReg email password name),
          m.Generate tLogin newId,
          Auth.sanitizeUser (aux_newUser newId tReg email password name),
          Auth.sanitizeUser (aux_newUser newId tReg email password name),
          ?_, ?_, ?_, rfl⟩
  · rw [hreg]
  · rw [hreg]
    exact hlogin
  · rw [hreg]
    exact hver

theorem register_login_verifyToken_roundtrip_witness :
    (goTrim (goToLower "A@Example.com") ≠ "" ∧
      goTrim "secret1" ≠ "" ∧
      (repoGetByEmail [] (goTrim (goToLower "A@Example.com"))).1 = none ∧
      (∀ u ∈ ([] : Store), u.id ≠ "id-1") ∧
      (5 : Int) < 3 + demoM.expiration) ∧
    (∃ (regUser : User) (token : SignedToken) (loginUser verifyUser : User),
      (Auth.register [] "id-1" 1 "A@Example.com" "secret1" "Alice").1 = .ok regUser ∧
      (Auth.login (Auth.register [] "id-1" 1 "A@Example.com" "secret1" "Alice").2 demoM 3
        ⟨"A@Example.com", "secret1"⟩).1 = .ok (token, loginUser) ∧
      (Auth.verifyToken (Auth.register [] "id-1" 1 "A@Example.com" "secret1" "Alice").2 demoM 5
        (some token)).1 = .ok verifyUser ∧
      verifyUser.id = regUser.id) :=
  ⟨⟨by decide, by decide, by decide, by simp, by decide⟩,
   register_login_verifyToken_roundtrip [] demoM "id-1" 1 3 5 "A@Example.com" "secret1" "Alice"
     (by decide) (by decide) (by decide) (by simp) (by decide)⟩
